import Mathlib

/-!
Shallow embedding of the `memstore` package (a local JSON-backed note/"memory"
store) and proofs about its operations.

Source files embedded:
  * `memstore/storage.py`  — `JSONStorage.load` / `JSONStorage.save`
  * `memstore/base.py`     — `MemoryItem`
  * `memstore/modules.py`  — `GenericMemory.add` / `GenericMemory.query`
  * `memstore/manager.py`  — `ModelAdapter.categorize`, `MemoryManager.query`,
    `MemoryManager.ingest_chat_log`, `MemoryManager.ingest_qwen_json`,
    `MemoryManager.find_relevant`

Modelling conventions:
  * Python JSON values are the inductive `JSONVal`; the Python stdlib `json`
    codec is modelled at the value level (a category file either holds a parsed
    JSON value or unparseable text, `FileData`), since `json.dumps`/`json.loads`
    round-trip JSON-representable values.
  * `uuid.uuid4()` and `time.time()` are external nondeterminism; the manager
    state carries an oracle `gen : Nat → String × Nat` and a `tick` counter,
    and each add consumes `gen tick`.
  * Python `str.lower` is ASCII lowering here (`Char.toLower` in Lean and
    Python agree on the ASCII keywords and queries the claims concern).
  * Timestamps (`created_at`, Python floats) are modelled as `Nat`; only their
    ordering is ever used by the code.
-/

/-- Python JSON values (result of `json.loads` / argument of `json.dumps`). -/
inductive JSONVal where
  | jnull
  | jbool (b : Bool)
  | jnum (n : Int)
  | jstr (s : String)
  | jarr (elems : List JSONVal)
  | jobj (fields : List (String × JSONVal))

/-- A JSON object's field list (a Python dict with string keys). -/
abbrev JDict := List (String × JSONVal)

/-- ASCII lowering of one character, as Python `str.lower` acts on ASCII. -/
def lowerChar (c : Char) : Char :=
  if 65 ≤ c.toNat ∧ c.toNat ≤ 90 then Char.ofNat (c.toNat + 32) else c

/-- ASCII lowering of a string (model of Python `str.lower`). -/
def lowerStr (s : String) : String :=
  String.mk (s.data.map lowerChar)

/-- Does `needle` occur at the head of `hay`? -/
def leadsChars : List Char → List Char → Bool
  | [], _ => true
  | _ :: _, [] => false
  | a :: as, b :: bs => a == b && leadsChars as bs

/-- Does `needle` occur as a contiguous run anywhere in `hay`?
Model of Python's `needle in hay` on strings (true for the empty needle). -/
def containsChars (needle : List Char) : List Char → Bool
  | [] => needle.isEmpty
  | b :: t => leadsChars needle (b :: t) || containsChars needle t

/-- Python `needle in hay` substring test on strings. -/
def occursIn (needle hay : String) : Bool :=
  containsChars needle.data hay.data

/-- Contents of one `<category>.json` file: either text that parses to a JSON
value, or text the stdlib `json.load` rejects. -/
inductive FileData where
  | valid (v : JSONVal)
  | invalid (raw : String)

/-- The storage directory: category name to file contents. -/
abbrev FS := List (String × FileData)

/-- Read a category's file (`Path.exists` + open), `none` when absent. -/
def FS.read : FS → String → Option FileData
  | [], _ => none
  | (m, e) :: rest, n => if m = n then some e else FS.read rest n

/-- Overwrite (or create) a category's file. -/
def FS.set : FS → String → FileData → FS
  | [], n, d => [(n, d)]
  | (m, e) :: rest, n, d => if m = n then (n, d) :: rest else (m, e) :: FS.set rest n d

/-- Outcome of `JSONStorage.load`: the parsed value, or the
`json.JSONDecodeError` the stdlib raises on unparseable text. -/
inductive LoadResult where
  | ok (v : JSONVal)
  | decodeError

/-- `JSONStorage.load` (storage.py lines 21-26): `[]` when the file does not
exist, else `json.load` of the file — whatever JSON value it holds. -/
def JSONStorage.load (fs : FS) (name : String) : LoadResult :=
  match FS.read fs name with
  | none => .ok (.jarr [])
  | some (.valid v) => .ok v
  | some (.invalid _) => .decodeError

/-- `JSONStorage.save` (storage.py lines 28-31): `json.dump` of the item list,
replacing the file wholesale. -/
def JSONStorage.save (fs : FS) (name : String) (items : List JSONVal) : FS :=
  FS.set fs name (.valid (.jarr items))

/-- `MemoryItem` (base.py): one stored record. `content` is free text and
`metadata` a JSON object, per the record data model. -/
structure MemoryItem where
  id : String
  type : String
  content : String
  metadata : JDict
  created_at : Nat

/-- `MemoryItem.to_dict` (via `dataclasses.asdict`) followed by `json.dump`:
the five fields in dataclass order. -/
def MemoryItem.toJSON (r : MemoryItem) : JSONVal :=
  .jobj [("id", .jstr r.id), ("type", .jstr r.type), ("content", .jstr r.content),
         ("metadata", .jobj r.metadata), ("created_at", .jnum (Int.ofNat r.created_at))]

/-- `GenericMemory.add` (modules.py lines 23-31): build a `MemoryItem` with a
fresh id and the current time, append it to the in-memory list and persist the
whole list. Returns (new item, new in-memory list, new file system). -/
def GenericMemory.add (name : String) (items : List MemoryItem) (fs : FS)
    (content : String) (metadata : JDict) (freshId : String) (now : Nat) :
    MemoryItem × List MemoryItem × FS :=
  let item : MemoryItem :=
    { id := freshId, type := name, content := content, metadata := metadata, created_at := now }
  let items2 := items ++ [item]
  (item, items2, JSONStorage.save fs name (items2.map MemoryItem.toJSON))

/-- `GenericMemory.query` (modules.py lines 33-37): case-insensitive substring
filter over `content`, truncated to the first `limit` matches. -/
def GenericMemory.query (items : List MemoryItem) (q : String) (limit : Nat) :
    List MemoryItem :=
  (items.filter (fun it => occursIn (lowerStr q) (lowerStr it.content))).take limit

/-- Keyword table, "conversations" row (manager.py lines 20-26). -/
def conversationKws : List String := ["said", "asked", "reply", "conversation", "chat"]

/-- Keyword table, "documents" row. -/
def documentKws : List String := ["document", "report", "article", "paper", "notes"]

/-- Keyword table, "crashreport" row. -/
def crashKws : List String := ["error", "traceback", "crash", "exception"]

/-- Keyword table, "reminders" row. -/
def reminderKws : List String := ["remind", "reminder", "remember to"]

/-- The `rules` dict of `ModelAdapter.categorize`, in insertion order. -/
def rules : List (String × List String) :=
  [("conversations", conversationKws), ("documents", documentKws),
   ("crashreport", crashKws), ("reminders", reminderKws)]

/-- Does any keyword of a row occur in the (already lowered) text? This is the
inner `for kw in kws: if kw in text_l: ...; break` loop. -/
def ruleHits (kws : List String) (textL : String) : Bool :=
  kws.any (fun kw => occursIn kw textL)

/-- `ModelAdapter.categorize` (manager.py lines 14-34): lower the text, keep
every rule row with some keyword occurring in it, fall back to ["generic"]. -/
def ModelAdapter.categorize (text : String) : List String :=
  let textL := lowerStr text
  let tags := (rules.filter (fun r => ruleHits r.2 textL)).map Prod.fst
  if tags.isEmpty then ["generic"] else tags

/-- The keys of `MemoryManager.__init__`'s `self.modules` dict, in insertion
order (manager.py lines 47-53). -/
def knownNames : List String :=
  ["conversations", "documents", "generic", "crashreport", "reminders"]

/-- State of a `MemoryManager`: the five modules' in-memory item lists, the
storage directory, and the oracle for `uuid.uuid4()` / `time.time()`. -/
structure MemoryManager where
  conversations : List MemoryItem
  documents : List MemoryItem
  generic : List MemoryItem
  crashreport : List MemoryItem
  reminders : List MemoryItem
  fs : FS
  tick : Nat
  gen : Nat → String × Nat

/-- `self.modules.get(name)._items`: the named module's in-memory list. -/
def MemoryManager.getItems (st : MemoryManager) (cat : String) : Option (List MemoryItem) :=
  if cat = "conversations" then some st.conversations
  else if cat = "documents" then some st.documents
  else if cat = "generic" then some st.generic
  else if cat = "crashreport" then some st.crashreport
  else if cat = "reminders" then some st.reminders
  else none

/-- Replace the named module's in-memory list (no-op on an unknown name). -/
def MemoryManager.setItems (st : MemoryManager) (cat : String) (items : List MemoryItem) :
    MemoryManager :=
  if cat = "conversations" then { st with conversations := items }
  else if cat = "documents" then { st with documents := items }
  else if cat = "generic" then { st with generic := items }
  else if cat = "crashreport" then { st with crashreport := items }
  else if cat = "reminders" then { st with reminders := items }
  else st

/-- Python dict update `d[k] = v`: overwrite in place, else append at the end. -/
def dictSet : JDict → String → JSONVal → JDict
  | [], k, v => [(k, v)]
  | (k2, v2) :: rest, k, v =>
    if k2 = k then (k, v) :: rest else (k2, v2) :: dictSet rest k v

/-- Route one `mod.add(content, metadata)` call on the named module: consumes
one oracle value for the fresh id and timestamp, updates the module list and
the backing file via `GenericMemory.add`. -/
def MemoryManager.addTo (st : MemoryManager) (cat content : String) (md : JDict) :
    MemoryManager :=
  match st.getItems cat with
  | none => st
  | some items =>
    let fid := (st.gen st.tick).1
    let now := (st.gen st.tick).2
    let r := GenericMemory.add cat items st.fs content md fid now
    { st.setItems cat r.2.1 with fs := r.2.2, tick := st.tick + 1 }

/-- `ConversationMemory.add_turn` (modules.py): set `metadata["speaker"]` then
plain add. The speaker may be any JSON value on the structured path. -/
def MemoryManager.addTurn (st : MemoryManager) (cat : String) (speaker : JSONVal)
    (text : String) (md : JDict) : MemoryManager :=
  st.addTo cat text (dictSet md "speaker" speaker)

/-- `DocumentMemory.add_document` (modules.py): set `metadata["title"]` then
plain add. -/
def MemoryManager.addDocument (st : MemoryManager) (cat : String) (title : JSONVal)
    (text : String) (md : JDict) : MemoryManager :=
  st.addTo cat text (dictSet md "title" title)

/-- `self.modules.get(tag) or self.modules.get("generic")`: the name of the
module an ingested tag lands in. -/
def tagModuleName (tag : String) : String :=
  if tag ∈ knownNames then tag else "generic"

/-- The per-category counters `ingest_chat_log` / `ingest_qwen_json` return. -/
structure Counts where
  conversations : Nat
  documents : Nat
  generic : Nat
  crashreport : Nat
  reminders : Nat

/-- `counts = {k: 0 for k in self.modules.keys()}`. -/
def zeroCounts : Counts := ⟨0, 0, 0, 0, 0⟩

/-- `counts[mod.name] = counts.get(mod.name, 0) + 1` — `mod.name` is always one
of the five module names. -/
def bump (c : Counts) (n : String) : Counts :=
  if n = "conversations" then { c with conversations := c.conversations + 1 }
  else if n = "documents" then { c with documents := c.documents + 1 }
  else if n = "crashreport" then { c with crashreport := c.crashreport + 1 }
  else if n = "reminders" then { c with reminders := c.reminders + 1 }
  else { c with generic := c.generic + 1 }

/-- Sum of the five counters (the claims speak of the mapping's value sum). -/
def sumCounts (c : Counts) : Nat :=
  c.conversations + c.documents + c.generic + c.crashreport + c.reminders

/-- Python `str.splitlines` over the common terminators \r\n, \r, \n
(no trailing empty line for text ending in a terminator). -/
def splitLinesCore : List Char → List Char → List String
  | [], cur => if cur.isEmpty then [] else [String.mk cur.reverse]
  | '\r' :: '\n' :: rest, cur => String.mk cur.reverse :: splitLinesCore rest []
  | '\r' :: rest, cur => String.mk cur.reverse :: splitLinesCore rest []
  | '\n' :: rest, cur => String.mk cur.reverse :: splitLinesCore rest []
  | c :: rest, cur => splitLinesCore rest (c :: cur)

/-- Python `text.splitlines()`. -/
def splitlines (s : String) : List String :=
  splitLinesCore s.data []

/-- `[ln.strip() for ln in chat_text.splitlines() if ln.strip()]`. -/
def linesOf (text : String) : List String :=
  ((splitlines text).map String.trim).filter (fun s => s != "")

/-- Python `ln.split(":", 1)` when a colon is present (`":" in ln`). -/
def splitFirstColon (ln : String) : Option (String × String) :=
  match ln.data.dropWhile (fun c => c != ':') with
  | [] => none
  | _ :: rest => some (String.mk (ln.data.takeWhile (fun c => c != ':')), String.mk rest)

/-- The per-tag body of `ingest_chat_log`'s inner loop (manager.py lines
67-87): dispatch on the tag, store the line, bump the landing module's count. -/
def MemoryManager.ingestLineTag (st : MemoryManager) (c : Counts) (tag ln : String) :
    MemoryManager × Counts :=
  if tag = "conversations" then
    match splitFirstColon ln with
    | some (sp, txt) =>
      (st.addTurn "conversations" (.jstr sp.trim) txt.trim [], bump c "conversations")
    | none => (st.addTurn "conversations" (.jstr "user") ln [], bump c "conversations")
  else if tag = "documents" then
    (st.addDocument "documents" (.jstr "ingested") ln [], bump c "documents")
  else
    (st.addTo (tagModuleName tag) ln [], bump c (tagModuleName tag))

/-- One line of `ingest_chat_log`: classify, then store once per tag. -/
def MemoryManager.ingestLine (st : MemoryManager) (c : Counts) (ln : String) :
    MemoryManager × Counts :=
  (ModelAdapter.categorize ln).foldl
    (fun p tag => MemoryManager.ingestLineTag p.1 p.2 tag ln) (st, c)

/-- `MemoryManager.ingest_chat_log` (manager.py lines 55-88). -/
def MemoryManager.ingest_chat_log (st : MemoryManager) (text : String) :
    MemoryManager × Counts :=
  (linesOf text).foldl (fun p ln => MemoryManager.ingestLine p.1 p.2 ln) (st, zeroCounts)

/-- `MemoryManager.query` (manager.py lines 90-94): delegate to the named
module, `[]` when the name is unknown. The method performs no writes, so the
state comes back unchanged. -/
def MemoryManager.query (st : MemoryManager) (mem_type q : String) (limit : Nat) :
    MemoryManager × List MemoryItem :=
  match st.getItems mem_type with
  | none => (st, [])
  | some items => (st, GenericMemory.query items q limit)

/-- Insert one record into an already-processed list, before the first element
with an older-or-equal timestamp. -/
def insertDesc (a : MemoryItem) : List MemoryItem → List MemoryItem
  | [] => [a]
  | b :: l => if b.created_at ≤ a.created_at then a :: b :: l else b :: insertDesc a l

/-- Stable sort by `created_at` descending. Python's `sorted(key=..., reverse=True)`
is a stable sort with exactly this order; any stable sort produces the same
output, and this insertion sort is proved stable below
(`filter_sortDesc` / `sortDesc_perm` / `pairwise_sortDesc`). -/
def sortDesc : List MemoryItem → List MemoryItem
  | [] => []
  | a :: l => insertDesc a (sortDesc l)

/-- One module's contribution inside `find_relevant`'s loop: `modules.get(mt)`
then `mod.query(query_text, limit=limit)`, skipping unknown names. -/
def modQuery (st : MemoryManager) (mt q : String) (limit : Nat) : List MemoryItem :=
  match st.getItems mt with
  | none => []
  | some items => GenericMemory.query items q limit

/-- The `results` list of `find_relevant` before sorting: per-category query
hits concatenated in the requested category order. -/
def gather (st : MemoryManager) (q : String) (limit : Nat) : List String → List MemoryItem
  | [] => []
  | mt :: rest => modQuery st mt q limit ++ gather st q limit rest

/-- `mem_types = mem_types or list(self.modules.keys())`: `None` and the empty
list both fall back to all known categories. -/
def effectiveCats (memTypes : Option (List String)) : List String :=
  match memTypes with
  | none => knownNames
  | some l => if l.isEmpty then knownNames else l

/-- `MemoryManager.find_relevant` (manager.py lines 138-149): gather the
per-category hits, sort by `created_at` descending (stable), truncate. -/
def MemoryManager.find_relevant (st : MemoryManager) (q : String)
    (memTypes : Option (List String)) (limit : Nat) : List MemoryItem :=
  (sortDesc (gather st q limit (effectiveCats memTypes))).take limit

/-- Python truthiness of a JSON value (`bool(x)`). -/
def truthy : JSONVal → Bool
  | .jnull => false
  | .jbool b => b
  | .jnum n => n != 0
  | .jstr s => s != ""
  | .jarr l => !l.isEmpty
  | .jobj f => !f.isEmpty

/-- Python `a or b` applied to JSON values. -/
def orTruthy (a b : JSONVal) : JSONVal :=
  if truthy a then a else b

/-- Python `d.get(k)` on an object's fields (`None` for a missing key). -/
def dictGet (fields : JDict) (k : String) : JSONVal :=
  match fields.lookup k with
  | some v => v
  | none => .jnull

/-- The Python exceptions the embedded operations can raise. `outOfModel` is a
modelling marker, not a Python exception — see `entryProcess`. -/
inductive PyExc where
  | valueError
  | attributeError
  | typeError
  | outOfModel

/-- Python `for it in x`: list elements; string characters; dict keys;
`TypeError` on null, bool and numbers. -/
def pyIter : JSONVal → Except PyExc (List JSONVal)
  | .jarr l => .ok l
  | .jstr s => .ok (s.data.map (fun c => JSONVal.jstr (String.mk [c])))
  | .jobj f => .ok (f.map (fun kv => JSONVal.jstr kv.1))
  | _ => .error .typeError

/-- Is the value a JSON object (a Python dict, carrying `.get`)? -/
def JSONVal.isObj : JSONVal → Bool
  | .jobj _ => true
  | _ => false

/-- The per-entry body of `ingest_qwen_json`'s loop (manager.py lines 112-124):
resolve type/content/metadata with `or`-chains, dispatch on the type, store,
and report the landing module's name. A non-object entry raises
`AttributeError` at `it.get`, as does a truthy non-object metadata value at
`metadata.get` on the conversations/documents branches. Entries whose resolved
content is not a JSON string (or, on the plain branch, whose metadata is not
an object) are outside the record data model of base.py — the Python code
would store an ill-typed record; such entries are mapped to the marker
`outOfModel`, and no claim depends on them. -/
def entryProcess (st : MemoryManager) (it : JSONVal) : Except PyExc (MemoryManager × String) :=
  match it with
  | .jobj f =>
    let typV := orTruthy (dictGet f "type") (orTruthy (dictGet f "mem_type") (.jstr "generic"))
    let contentV := orTruthy (dictGet f "content") (orTruthy (dictGet f "summary") (.jstr ""))
    let metaV := orTruthy (dictGet f "metadata") (.jobj [])
    match typV with
    | .jstr "conversations" =>
      match metaV with
      | .jobj md =>
        let speaker := match md.lookup "speaker" with
          | some v => v
          | none => .jstr "user"
        match contentV with
        | .jstr content => .ok (st.addTurn "conversations" speaker content md, "conversations")
        | _ => .error .outOfModel
      | _ => .error .attributeError
    | .jstr "documents" =>
      match metaV with
      | .jobj md =>
        let title := match md.lookup "title" with
          | some v => v
          | none => .jstr "ingested"
        match contentV with
        | .jstr content => .ok (st.addDocument "documents" title content md, "documents")
        | _ => .error .outOfModel
      | _ => .error .attributeError
    | typV2 =>
      let target := match typV2 with
        | .jstr s => tagModuleName s
        | _ => "generic"
      match contentV, metaV with
      | .jstr content, .jobj md => .ok (st.addTo target content md, target)
      | _, _ => .error .outOfModel
  | _ => .error .attributeError

/-- One step of `ingest_qwen_json`'s loop: process the entry, bump its count. -/
def qwenStep (p : MemoryManager × Counts) (it : JSONVal) :
    Except PyExc (MemoryManager × Counts) :=
  match entryProcess p.1 it with
  | .error e => .error e
  | .ok (st2, nm) => .ok (st2, bump p.2 nm)

/-- `MemoryManager.ingest_qwen_json` (manager.py lines 101-127). The input is
the outcome of `json.loads` on the caller's text: `none` when the text is not
valid JSON (the `except` branch raises `ValueError("Invalid JSON ...")`),
`some v` for the parsed value. -/
def MemoryManager.ingest_qwen_json (st : MemoryManager) (input : Option JSONVal) :
    Except PyExc (MemoryManager × Counts) :=
  match input with
  | none => .error .valueError
  | some parsed =>
    match parsed with
    | .jobj fields =>
      let chosen := orTruthy (dictGet fields "items") (orTruthy (dictGet fields "results") (.jarr []))
      match pyIter chosen with
      | .error e => .error e
      | .ok items => items.foldlM qwenStep (st, zeroCounts)
    | _ => .error .attributeError

/-- A concrete empty manager state (all modules empty, empty directory). -/
def st0 : MemoryManager :=
  { conversations := [], documents := [], generic := [], crashreport := [],
    reminders := [], fs := [], tick := 0, gen := fun n => (Nat.repr n, n) }

/-- A concrete record used to instantiate query properties. -/
def item0 : MemoryItem :=
  { id := "i0", type := "generic", content := "Hello world", metadata := [], created_at := 5 }

theorem FS.read_set (fs : FS) (n : String) (d : FileData) :
    FS.read (FS.set fs n d) n = some d := by
  induction fs with
  | nil => simp [FS.set, FS.read]
  | cons h t ih =>
    obtain ⟨m, e⟩ := h
    by_cases hm : m = n
    · simp [FS.set, hm, FS.read]
    · simp [FS.set, hm, FS.read, ih]

/-- C1 counterexample: a backing file holding valid JSON that is not an array
(here the empty object). `load` returns the parsed value; it does not fail, so
the claimed CorruptStore failure on "valid JSON that is not an array" is false
of the code. -/
theorem load_nonarray_counterexample :
    FS.read [("cat", FileData.valid (JSONVal.jobj []))] "cat"
        = some (FileData.valid (JSONVal.jobj [])) ∧
      JSONStorage.load [("cat", FileData.valid (JSONVal.jobj []))] "cat"
        = LoadResult.ok (JSONVal.jobj []) :=
  ⟨rfl, rfl⟩

/-- C1 (amended): for every category, `load` returns the empty array when no
backing file exists, fails when the file exists but is not valid JSON, and
returns the parsed value — without failing — when the file holds valid JSON,
array or not. -/
theorem load_spec (fs : FS) (name : String) :
    (FS.read fs name = none → JSONStorage.load fs name = LoadResult.ok (JSONVal.jarr [])) ∧
    (∀ raw, FS.read fs name = some (FileData.invalid raw) →
      JSONStorage.load fs name = LoadResult.decodeError) ∧
    (∀ v, FS.read fs name = some (FileData.valid v) →
      JSONStorage.load fs name = LoadResult.ok v) := by
  refine ⟨fun h => ?_, fun raw h => ?_, fun v h => ?_⟩ <;> simp [JSONStorage.load, h]

/-- Witness for `load_spec`: each of its three hypotheses discharged at a
concrete file system. -/
theorem load_spec_witness :
    JSONStorage.load [] "c" = LoadResult.ok (JSONVal.jarr []) ∧
    JSONStorage.load [("c", FileData.invalid "oops")] "c" = LoadResult.decodeError ∧
    JSONStorage.load [("c", FileData.valid (JSONVal.jnum 7))] "c"
      = LoadResult.ok (JSONVal.jnum 7) :=
  ⟨(load_spec [] "c").1 rfl,
   (load_spec [("c", FileData.invalid "oops")] "c").2.1 "oops" rfl,
   (load_spec [("c", FileData.valid (JSONVal.jnum 7))] "c").2.2 (JSONVal.jnum 7) rfl⟩

/-- C4: `save` followed by `load` for the same category returns exactly the
saved sequence — stated for sequences of record-mappings, and for arbitrary
JSON item lists. -/
theorem save_load_roundtrip (fs : FS) (name : String) (recs : List MemoryItem) :
    JSONStorage.load (JSONStorage.save fs name (recs.map MemoryItem.toJSON)) name
      = LoadResult.ok (JSONVal.jarr (recs.map MemoryItem.toJSON)) ∧
    ∀ items : List JSONVal,
      JSONStorage.load (JSONStorage.save fs name items) name
        = LoadResult.ok (JSONVal.jarr items) := by
  constructor
  · simp [JSONStorage.load, JSONStorage.save, FS.read_set]
  · intro items
    simp [JSONStorage.load, JSONStorage.save, FS.read_set]

/-- C8: after a completed `GenericMemory.add`, the in-memory list is the old
list plus the new record, and a `load` of the category's file returns exactly
that in-memory list; likewise after any completed `save`. -/
theorem add_persists_inmemory_eq_file (name : String) (items : List MemoryItem)
    (fs : FS) (content : String) (md : JDict) (fid : String) (now : Nat) :
    (GenericMemory.add name items fs content md fid now).2.1
      = items ++ [{ id := fid, type := name, content := content,
                    metadata := md, created_at := now }] ∧
    JSONStorage.load (GenericMemory.add name items fs content md fid now).2.2 name
      = LoadResult.ok (JSONVal.jarr
          ((GenericMemory.add name items fs content md fid now).2.1.map MemoryItem.toJSON)) ∧
    ∀ (fs2 : FS) (n : String) (its : List JSONVal),
      JSONStorage.load (JSONStorage.save fs2 n its) n = LoadResult.ok (JSONVal.jarr its) := by
  refine ⟨rfl, ?_, fun fs2 n its => ?_⟩ <;>
    simp [GenericMemory.add, JSONStorage.load, JSONStorage.save, FS.read_set]

/-- C9: `MemoryManager.query` with a category name outside the known module
set returns the empty sequence, raises nothing, and leaves the state
unchanged. -/
theorem query_unknown_category (st : MemoryManager) (mt q : String) (limit : Nat)
    (h : mt ∉ knownNames) :
    MemoryManager.query st mt q limit = (st, []) := by
  simp only [knownNames, List.mem_cons, List.mem_singleton, not_or] at h
  obtain ⟨h1, h2, h3, h4, h5⟩ := h
  simp [MemoryManager.query, MemoryManager.getItems, h1, h2, h3, h4, h5]

/-- Witness for `query_unknown_category` at a concrete state and name. -/
theorem query_unknown_category_witness :
    "unknowncat" ∉ knownNames ∧ MemoryManager.query st0 "unknowncat" "x" 10 = (st0, []) :=
  ⟨by decide, query_unknown_category st0 "unknowncat" "x" 10 (by decide)⟩

/-- C6: `GenericMemory.query` returns only items whose content contains the
query case-insensitively, at most `limit` of them, in insertion order —
specifically the first `limit` matches (a prefix of the match list whose
length is `min limit (number of matches)`). -/
theorem query_filter_spec (items : List MemoryItem) (q : String) (limit : Nat) :
    (∀ it ∈ GenericMemory.query items q limit,
      occursIn (lowerStr q) (lowerStr it.content) = true) ∧
    (GenericMemory.query items q limit).length ≤ limit ∧
    List.Sublist (GenericMemory.query items q limit) items ∧
    (GenericMemory.query items q limit).length
      = min limit (items.filter (fun it => occursIn (lowerStr q) (lowerStr it.content))).length ∧
    ∃ rest, GenericMemory.query items q limit ++ rest
      = items.filter (fun it => occursIn (lowerStr q) (lowerStr it.content)) := by
  refine ⟨?_, ?_, ?_, ?_, ?_⟩
  · intro it hit
    have h1 : it ∈ items.filter (fun it => occursIn (lowerStr q) (lowerStr it.content)) :=
      List.mem_of_mem_take hit
    simpa using List.of_mem_filter h1
  · exact List.length_take_le _ _
  · exact (List.take_sublist _ _).trans (List.filter_sublist _)
  · exact List.length_take _ _
  · exact ⟨_, List.take_append_drop _ _⟩

/-- Witness for `query_filter_spec`: the content-containment hypothesis
discharged on a concrete one-item module state. -/
theorem query_filter_spec_witness :
    occursIn (lowerStr "ell") (lowerStr item0.content) = true := by
  have hq : GenericMemory.query [item0] "ell" 10 = [item0] := rfl
  exact (query_filter_spec [item0] "ell" 10).1 item0 (by rw [hq]; exact List.mem_singleton.mpr rfl)

/-- C7: a rule category is in `categorize`'s result exactly when one of its
keywords occurs in the lowered text, and when no row matches the result is
exactly ["generic"]. -/
theorem categorize_keyword_iff (text : String) :
    (("conversations" ∈ ModelAdapter.categorize text)
        ↔ ruleHits conversationKws (lowerStr text) = true) ∧
    (("documents" ∈ ModelAdapter.categorize text)
        ↔ ruleHits documentKws (lowerStr text) = true) ∧
    (("crashreport" ∈ ModelAdapter.categorize text)
        ↔ ruleHits crashKws (lowerStr text) = true) ∧
    (("reminders" ∈ ModelAdapter.categorize text)
        ↔ ruleHits reminderKws (lowerStr text) = true) ∧
    ((ruleHits conversationKws (lowerStr text) = false ∧
      ruleHits documentKws (lowerStr text) = false ∧
      ruleHits crashKws (lowerStr text) = false ∧
      ruleHits reminderKws (lowerStr text) = false) →
      ModelAdapter.categorize text = ["generic"]) := by
  cases h1 : ruleHits conversationKws (lowerStr text) <;>
  cases h2 : ruleHits documentKws (lowerStr text) <;>
  cases h3 : ruleHits crashKws (lowerStr text) <;>
  cases h4 : ruleHits reminderKws (lowerStr text) <;>
    simp [ModelAdapter.categorize, rules, List.filter, h1, h2, h3, h4]

/-- Witness for `categorize_keyword_iff`: the no-match hypothesis discharged
at the empty text. -/
theorem categorize_keyword_iff_witness :
    ModelAdapter.categorize "" = ["generic"] :=
  (categorize_keyword_iff "").2.2.2.2 ⟨by decide, by decide, by decide, by decide⟩

/-- C10: `categorize` always returns a non-empty duplicate-free list of known
category names in rule-table order, and "generic" occurs only as the sole
element. -/
theorem categorize_shape (text : String) :
    ModelAdapter.categorize text ≠ [] ∧
    (ModelAdapter.categorize text).Nodup ∧
    (∀ c ∈ ModelAdapter.categorize text, c ∈ knownNames) ∧
    (ModelAdapter.categorize text = ["generic"] ∨
      ("generic" ∉ ModelAdapter.categorize text ∧
        List.Sublist (ModelAdapter.categorize text)
          ["conversations", "documents", "crashreport", "reminders"])) := by
  cases h1 : ruleHits conversationKws (lowerStr text) <;>
  cases h2 : ruleHits documentKws (lowerStr text) <;>
  cases h3 : ruleHits crashKws (lowerStr text) <;>
  cases h4 : ruleHits reminderKws (lowerStr text) <;>
    simp [ModelAdapter.categorize, rules, List.filter, h1, h2, h3, h4, knownNames]

/-- Witness for `categorize_shape`: the membership hypothesis discharged at a
concrete text and category. -/
theorem categorize_shape_witness :
    "crashreport" ∈ knownNames :=
  (categorize_shape "error").2.2.1 "crashreport" (by decide)

theorem bump_sum (c : Counts) (n : String) : sumCounts (bump c n) = sumCounts c + 1 := by
  unfold bump sumCounts
  split_ifs <;> simp <;> omega

theorem ingestLineTag_sum (st : MemoryManager) (c : Counts) (tag ln : String) :
    sumCounts (MemoryManager.ingestLineTag st c tag ln).2 = sumCounts c + 1 := by
  unfold MemoryManager.ingestLineTag
  split_ifs with h1 h2
  · rcases h : splitFirstColon ln with _ | ⟨sp, txt⟩ <;> simp [h, bump_sum]
  · simp [bump_sum]
  · simp [bump_sum]

theorem ingestLine_sum_aux (ln : String) (tags : List String) (p : MemoryManager × Counts) :
    sumCounts ((tags.foldl (fun p tag => MemoryManager.ingestLineTag p.1 p.2 tag ln) p).2)
      = sumCounts p.2 + tags.length := by
  induction tags generalizing p with
  | nil => simp
  | cons t ts ih =>
    simp only [List.foldl_cons, List.length_cons]
    rw [ih, ingestLineTag_sum]
    omega

theorem ingest_lines_sum_aux (lns : List String) (p : MemoryManager × Counts) :
    sumCounts ((lns.foldl (fun p ln => MemoryManager.ingestLine p.1 p.2 ln) p).2)
      = sumCounts p.2 + (lns.map (fun ln => (ModelAdapter.categorize ln).length)).sum := by
  induction lns generalizing p with
  | nil => simp
  | cons ln ls ih =>
    simp only [List.foldl_cons, List.map_cons, List.sum_cons]
    rw [ih]
    have hl : sumCounts (MemoryManager.ingestLine p.1 p.2 ln).2
        = sumCounts p.2 + (ModelAdapter.categorize ln).length :=
      ingestLine_sum_aux ln (ModelAdapter.categorize ln) p
    rw [hl]
    omega

/-- C5: the counters `ingest_chat_log` returns sum to the total, over all
non-empty trimmed lines, of the number of categories the classifier assigns to
the line (`categorize` yields exactly ["generic"] — one category — for a line
matching no keyword). -/
theorem ingest_chat_log_count_sum (st : MemoryManager) (text : String) :
    sumCounts (MemoryManager.ingest_chat_log st text).2
      = ((linesOf text).map (fun ln => (ModelAdapter.categorize ln).length)).sum := by
  unfold MemoryManager.ingest_chat_log
  rw [ingest_lines_sum_aux]
  simp [zeroCounts, sumCounts]

theorem insertDesc_perm (a : MemoryItem) (l : List MemoryItem) :
    List.Perm (insertDesc a l) (a :: l) := by
  induction l with
  | nil => simp [insertDesc]
  | cons b t ih =>
    by_cases h : b.created_at ≤ a.created_at
    · simp [insertDesc, h]
    · simp only [insertDesc, if_neg h]
      exact (ih.cons b).trans (List.Perm.swap a b t)

theorem sortDesc_perm (l : List MemoryItem) : List.Perm (sortDesc l) l := by
  induction l with
  | nil => simp [sortDesc]
  | cons a t ih => exact (insertDesc_perm a (sortDesc t)).trans (ih.cons a)

theorem mem_insertDesc {x a : MemoryItem} {l : List MemoryItem} :
    x ∈ insertDesc a l ↔ x = a ∨ x ∈ l := by
  rw [(insertDesc_perm a l).mem_iff]
  simp

theorem pairwise_insertDesc (a : MemoryItem) :
    ∀ l : List MemoryItem, l.Pairwise (fun x y => y.created_at ≤ x.created_at) →
      (insertDesc a l).Pairwise (fun x y => y.created_at ≤ x.created_at) := by
  intro l
  induction l with
  | nil => intro _; simp [insertDesc]
  | cons b t ih =>
    intro h
    rw [List.pairwise_cons] at h
    obtain ⟨hb, ht⟩ := h
    by_cases hc : b.created_at ≤ a.created_at
    · simp only [insertDesc, if_pos hc]
      rw [List.pairwise_cons]
      refine ⟨?_, List.pairwise_cons.mpr ⟨hb, ht⟩⟩
      intro y hy
      rcases List.mem_cons.mp hy with rfl | hy
      · exact hc
      · exact le_trans (hb y hy) hc
    · simp only [insertDesc, if_neg hc]
      rw [List.pairwise_cons]
      refine ⟨?_, ih ht⟩
      intro y hy
      rcases mem_insertDesc.mp hy with rfl | hy
      · exact le_of_not_le hc
      · exact hb y hy

theorem pairwise_sortDesc (l : List MemoryItem) :
    (sortDesc l).Pairwise (fun x y => y.created_at ≤ x.created_at) := by
  induction l with
  | nil => simp [sortDesc]
  | cons a t ih => exact pairwise_insertDesc a (sortDesc t) ih

theorem filter_insertDesc (a : MemoryItem) (l : List MemoryItem) (t : Nat) :
    (insertDesc a l).filter (fun r => r.created_at == t)
      = (a :: l).filter (fun r => r.created_at == t) := by
  induction l with
  | nil => simp [insertDesc]
  | cons b bs ih =>
    by_cases hc : b.created_at ≤ a.created_at
    · simp [insertDesc, hc]
    · simp only [insertDesc, if_neg hc]
      by_cases ha : a.created_at = t <;> by_cases hb : b.created_at = t
      · exact (hc (by omega)).elim
      · simp [List.filter_cons, ih, ha, hb, beq_iff_eq]
      · simp [List.filter_cons, ih, ha, hb, beq_iff_eq]
      · simp [List.filter_cons, ih, ha, hb, beq_iff_eq]

theorem filter_sortDesc (l : List MemoryItem) (t : Nat) :
    (sortDesc l).filter (fun r => r.created_at == t)
      = l.filter (fun r => r.created_at == t) := by
  induction l with
  | nil => simp [sortDesc]
  | cons a bs ih =>
    calc (sortDesc (a :: bs)).filter (fun r => r.created_at == t)
        = (a :: sortDesc bs).filter (fun r => r.created_at == t) :=
          filter_insertDesc a (sortDesc bs) t
      _ = (a :: bs).filter (fun r => r.created_at == t) := by
          rw [List.filter_cons, List.filter_cons, ih]

/-- C3: `find_relevant` returns at most `limit` items, sorted by `created_at`
descending; the returned sequence is the `limit`-prefix of the stable
descending sort of the concatenated per-category query results (`gather`) in
the requested category order — stability stated as: for every timestamp, the
sorted list restricted to that timestamp is exactly the gathered list
restricted to it (ties keep input order). -/
theorem find_relevant_sorted_stable (st : MemoryManager) (q : String)
    (memTypes : Option (List String)) (limit : Nat) :
    (MemoryManager.find_relevant st q memTypes limit).length ≤ limit ∧
    (MemoryManager.find_relevant st q memTypes limit).Pairwise
      (fun x y => y.created_at ≤ x.created_at) ∧
    ∃ s : List MemoryItem,
      MemoryManager.find_relevant st q memTypes limit = s.take limit ∧
      List.Perm s (gather st q limit (effectiveCats memTypes)) ∧
      s.Pairwise (fun x y => y.created_at ≤ x.created_at) ∧
      ∀ t : Nat, s.filter (fun r => r.created_at == t)
        = (gather st q limit (effectiveCats memTypes)).filter (fun r => r.created_at == t) := by
  refine ⟨List.length_take_le _ _,
    (pairwise_sortDesc _).sublist (List.take_sublist _ _),
    sortDesc (gather st q limit (effectiveCats memTypes)), rfl,
    sortDesc_perm _, pairwise_sortDesc _, fun t => filter_sortDesc _ t⟩

theorem entryProcess_ne_valueError (st : MemoryManager) (it : JSONVal) :
    entryProcess st it ≠ Except.error PyExc.valueError := by
  unfold entryProcess
  cases it <;> simp
  repeat' split
  all_goals simp

theorem qwenStep_ne_valueError (p : MemoryManager × Counts) (it : JSONVal) :
    qwenStep p it ≠ Except.error PyExc.valueError := by
  have h := entryProcess_ne_valueError p.1 it
  unfold qwenStep
  rcases he : entryProcess p.1 it with e | pr
  · rw [he] at h
    simpa using h
  · simp

theorem qwenFold_ne_valueError (its : List JSONVal) :
    ∀ p : MemoryManager × Counts,
      List.foldlM qwenStep p its ≠ Except.error PyExc.valueError := by
  induction its with
  | nil => intro p; simp [pure, Except.pure]
  | cons it ts ih =>
    intro p
    rw [List.foldlM_cons]
    rcases h : qwenStep p it with e | p2
    · have hne := qwenStep_ne_valueError p it
      rw [h] at hne
      intro hh
      exact hne hh
    · intro hh
      exact ih p2 hh

theorem pyIter_ne_valueError (v : JSONVal) : pyIter v ≠ Except.error PyExc.valueError := by
  cases v <;> simp [pyIter]

/-- C2 (amended): `ingest_qwen_json` raises the InvalidFormat `ValueError` for
exactly the inputs that are not valid JSON; a valid JSON input whose top level
is not an object fails with `AttributeError` (at `parsed.get`) instead of
returning; and a valid JSON object input with no truthy `items` or `results`
entry does not fail and returns the all-zero count mapping with the state
unchanged. -/
theorem ingest_qwen_json_spec (st : MemoryManager) :
    (MemoryManager.ingest_qwen_json st none = Except.error PyExc.valueError) ∧
    (∀ v : JSONVal, v.isObj = false →
      MemoryManager.ingest_qwen_json st (some v) = Except.error PyExc.attributeError) ∧
    (∀ fields : JDict, truthy (dictGet fields "items") = false →
      truthy (dictGet fields "results") = false →
      MemoryManager.ingest_qwen_json st (some (JSONVal.jobj fields))
        = Except.ok (st, zeroCounts)) ∧
    (∀ input : Option JSONVal,
      MemoryManager.ingest_qwen_json st input = Except.error PyExc.valueError ↔ input = none) := by
  refine ⟨rfl, ?_, ?_, ?_⟩
  · intro v hv
    cases v <;> simp_all [MemoryManager.ingest_qwen_json, JSONVal.isObj]
  · intro fields h1 h2
    simp [MemoryManager.ingest_qwen_json, orTruthy, h1, h2, pyIter, pure, Except.pure]
  · intro input
    constructor
    · intro h
      cases input with
      | none => rfl
      | some v =>
        exfalso
        cases v <;> simp [MemoryManager.ingest_qwen_json] at h
        case jobj f =>
          rcases hp : pyIter (orTruthy (dictGet f "items")
              (orTruthy (dictGet f "results") (JSONVal.jarr []))) with e | items
          · have := pyIter_ne_valueError (orTruthy (dictGet f "items")
              (orTruthy (dictGet f "results") (JSONVal.jarr [])))
            rw [hp] at h this
            exact this (by simpa using h)
          · rw [hp] at h
            exact qwenFold_ne_valueError items (st, zeroCounts) h
    · rintro rfl
      rfl

/-- C2 counterexample: the input text "42" is valid JSON with no `items` or
`results` list, yet `ingest_qwen_json` fails — with `AttributeError` at
`parsed.get("items")` — instead of returning an all-zero count mapping. -/
theorem ingest_qwen_nonobject_counterexample :
    MemoryManager.ingest_qwen_json st0 (some (JSONVal.jnum 42))
      = Except.error PyExc.attributeError := rfl

/-- Witness for `ingest_qwen_json_spec`: its hypotheses discharged at a
concrete state, a concrete non-object value and the empty object. -/
theorem ingest_qwen_json_spec_witness :
    JSONVal.isObj (JSONVal.jarr []) = false ∧
    MemoryManager.ingest_qwen_json st0 (some (JSONVal.jarr []))
      = Except.error PyExc.attributeError ∧
    MemoryManager.ingest_qwen_json st0 (some (JSONVal.jobj []))
      = Except.ok (st0, zeroCounts) :=
  ⟨rfl, (ingest_qwen_json_spec st0).2.1 (JSONVal.jarr []) rfl,
   (ingest_qwen_json_spec st0).2.2.1 [] rfl rfl⟩
